import Mathlib

/-
  Verification development for the xCodeProblemService repository.

  The Go sources are shallowly embedded: pure functions become Lean
  functions, the MongoDB collections (submissions, submissionsfirstsuccess)
  and the RedisBoard leaderboard become explicit state (lists), and the
  NATS executor round-trip becomes an oracle parameter.  Times are Int
  (unix seconds), machine ints are Int/Nat (no overflow is reachable in
  the modelled logic).
-/

namespace XCode

/- ===== Go string helpers (on List Char) ===== -/

/-- Embeds Go `strings.Replace(s, pat, rep, 1)`: replace the first
occurrence of `pat` in `s` by `rep`; if `pat` does not occur, `s` is
returned unchanged (and an empty `pat` is "found" at position 0). -/
def replaceFirst : List Char → List Char → List Char → List Char
  | [], pat, rep => if List.isPrefixOf pat [] then rep else []
  | c :: rest, pat, rep =>
    if List.isPrefixOf pat (c :: rest) then rep ++ List.drop pat.length (c :: rest)
    else c :: replaceFirst rest pat rep

/-- Embeds Go `strings.ReplaceAll(s, quote, backslash-quote)` as used in
RunUserCodeProblem: every `"` character becomes the two characters `\"`.
(For a single-character pattern, Go's left-to-right non-overlapping scan
is exactly this character-wise expansion.) -/
def escapeQuotes (s : List Char) : List Char :=
  s.flatMap (fun c => if c = '"' then ['\\', '"'] else [c])

/-- Embeds Go `strings.Contains(s, pat)`. -/
def containsSubstr : List Char → List Char → Bool
  | [], pat => List.isPrefixOf pat []
  | c :: rest, pat =>
    if List.isPrefixOf pat (c :: rest) then true else containsSubstr rest pat

/- ===== Data model (src/model/models.go, src/unnamed/part_008) ===== -/

/-- Embeds Go `strings.ToUpper` (character-wise; the modelled inputs are
ASCII country codes, on which Go's Unicode mapping is the ASCII one). -/
def toUpperStr (s : String) : String := String.mk (s.data.map Char.toUpper)

/-- Embeds Go `strings.ToLower` (character-wise, same ASCII remark). -/
def toLowerStr (s : String) : String := String.mk (s.data.map Char.toLower)

structure TestCase where
  id : String
  input : String
  expected : String
deriving Repr, DecidableEq

structure CodeData where
  placeholder : String
  code : String
  template : String
deriving Repr, DecidableEq

structure Problem where
  id : String
  title : String
  description : String
  tags : List String
  difficulty : String
  createdAt : Int
  updatedAt : Int
  deletedAt : Option Int
  testcasesRun : List TestCase
  testcasesSubmit : List TestCase
  supportedLanguages : List String
  validateCode : List (String × CodeData)
  validated : Bool
  validatedAt : Option Int
deriving Repr, DecidableEq

structure Submission where
  id : String
  userId : String
  problemId : String
  challengeId : Option String
  title : String
  submittedAt : Int
  status : String
  score : Int
  language : String
  userCode : String
  output : String
  executionTime : Int
  difficulty : String
  country : String
  isFirst : Bool
deriving Repr, DecidableEq

structure ProblemDone where
  id : String
  submissionId : String
  problemId : String
  userId : String
  title : String
  language : String
  difficulty : String
  submittedAt : Int
  country : String
  score : Int
deriving Repr, DecidableEq

/-- One row of the RedisBoard leaderboard index (redisboard.User). -/
structure LBUser where
  userId : String
  entity : String
  score : Int
deriving Repr, DecidableEq

/-- The shared mutable state touched by the submission writer: the
submissions collection, the submissionsfirstsuccess (ProblemDone)
collection, and the RedisBoard leaderboard index. -/
structure RepoState where
  submissions : List Submission
  problemDone : List ProblemDone
  lb : List LBUser
deriving Repr, DecidableEq

/- ===== Leaderboard index primitives ===== -/

/-- Modelled from the spec: RedisBoard `GetUserEntity` (the RedisBoard
library is an external dependency, not under src/).  Returns the entity
of the user's row, or none when the user has no row (the Go call returns
an error in that case). -/
def GetUserEntity (lb : List LBUser) (userId : String) : Option String :=
  (lb.find? (fun u => u.userId = userId)).map (fun u => u.entity)

/-- Modelled from the spec: RedisBoard `AddUser` is an idempotent
total-replace upsert — it replaces any existing row for the user. -/
def AddUser (lb : List LBUser) (u : LBUser) : List LBUser :=
  u :: lb.filter (fun v => v.userId ≠ u.userId)

/-- Modelled from the spec: RedisBoard `IncrementScore(userId, entity,
delta)` increments the user's score on the existing entity row. -/
def IncrementScore (lb : List LBUser) (userId : String) (entity : String) (delta : Int) : List LBUser :=
  lb.map (fun v => if v.userId = userId then { v with entity := entity, score := v.score + delta } else v)

/- ===== Scoring (src/unnamed/part_005, CalculateScore) ===== -/

/-- Embeds `CalculateScore`: a Go switch whose cases are the strings
"MEDIUM" and "HARD" (the "EASY" case is commented out in the source),
defaulting to 2 for every other difficulty string. -/
def CalculateScore (difficulty : String) : Int :=
  match difficulty with
  | "MEDIUM" => 4
  | "HARD" => 6
  | _ => 2

/-- Number of prior SUCCESS submissions of this user on this problem
(the CountDocuments query in PushSubmissionData). -/
def successCount (st : RepoState) (userId problemId : String) : Nat :=
  (st.submissions.filter
    (fun s => s.userId = userId ∧ s.problemId = problemId ∧ s.status = "SUCCESS")).length

/-- Embeds `Repository.PushSubmissionData` (src/unnamed/part_005 lines
98-175).  `doneId` stands for the ObjectID generated for the ProblemDone
row.  Uppercases the country, counts prior successes, marks a first
success (score from CalculateScore, isFirst true), inserts the
Submission, and on a first success inserts the ProblemDone row and
updates the leaderboard (AddUser when the user has no entity or an empty
entity, IncrementScore otherwise). -/
def PushSubmissionData (st : RepoState) (submission : Submission) (status : String) (doneId : String) : RepoState :=
  let submission := { submission with country := toUpperStr submission.country }
  let count := successCount st submission.userId submission.problemId
  let submission :=
    if count = 0 ∧ status = "SUCCESS" then
      { submission with score := CalculateScore submission.difficulty, isFirst := true }
    else submission
  let st := { st with submissions := st.submissions ++ [submission] }
  if status = "SUCCESS" ∧ submission.isFirst then
    let pd : ProblemDone :=
      { id := doneId
        submissionId := submission.id
        problemId := submission.problemId
        userId := submission.userId
        title := submission.title
        language := submission.language
        difficulty := submission.difficulty
        submittedAt := submission.submittedAt
        country := submission.country
        score := submission.score }
    let st := { st with problemDone := st.problemDone ++ [pd] }
    match GetUserEntity st.lb submission.userId with
    | none =>
        { st with lb := AddUser st.lb ⟨submission.userId, submission.country, submission.score⟩ }
    | some existingEntity =>
        if existingEntity = "" then
          { st with lb := AddUser st.lb ⟨submission.userId, submission.country, submission.score⟩ }
        else
          { st with lb := IncrementScore st.lb submission.userId existingEntity submission.score }
  else st

/- ===== Basic validation (src/unnamed/part_005, BasicValidationByProblemID) ===== -/

structure ValidationResp where
  success : Bool
  message : String
  errorType : String
deriving Repr, DecidableEq

/-- Assoc-list lookup standing for Go's `problem.ValidateCode[lang]`. -/
def lookupCode (m : List (String × CodeData)) (lang : String) : Option CodeData :=
  (m.find? (fun kv => kv.1 = lang)).map (fun kv => kv.2)

/-- The per-language loop of BasicValidationByProblemID: for each
supported language, check validation-code presence, placeholder,
template, and code, in that order. -/
def checkLanguages (p : Problem) : List String → ValidationResp
  | [] => ⟨true, "Basic Validation completed successfully", ""⟩
  | lang :: rest =>
    match lookupCode p.validateCode lang with
    | none => ⟨false, "Missing validation code for " ++ lang, "MISSING_VALIDATION_CODES"⟩
    | some cd =>
      if cd.placeholder = "" then
        ⟨false, "Missing placeholder for language " ++ lang, "MISSING_PLACEHOLDER"⟩
      else if cd.template = "" then
        ⟨false, "Missing template for language " ++ lang, "MISSING_TEMPLATE"⟩
      else if cd.code = "" then
        ⟨false, "Missing code for language " ++ lang, "MISSING_CODE"⟩
      else checkLanguages p rest

/-- Embeds `Repository.BasicValidationByProblemID` (src/unnamed/part_005
lines 755-788) after the id parse and document fetch: `none` stands for
a missing (or deleted) problem.  The test-case guard is the source's
`len(run) < 3 && len(submit) < 5` — a conjunction, exactly as written. -/
def BasicValidationByProblemID (problem? : Option Problem) : ValidationResp :=
  match problem? with
  | none => ⟨false, "Problem not found", "NOT_FOUND"⟩
  | some p =>
    if p.testcasesRun.length < 3 ∧ p.testcasesSubmit.length < 5 then
      ⟨false, "requirements not satisifed for len(testcase) >= 3 and len(submitcase) >= 5",
        "INSUFFICIENT_TESTCASES"⟩
    else if p.supportedLanguages.length = 0 then
      ⟨false, "No supported languages", "NO_LANGUAGES"⟩
    else checkLanguages p p.supportedLanguages

/- ===== Language normalization (src/unnamed/part_003, NormalizeLanguage) ===== -/

/-- The alias table of `NormalizeLanguage` (a Go map literal; only looked
up, never iterated, so an assoc list is a faithful embedding). -/
def languageMap : List (String × String) :=
  [("js", "js"), ("jscript", "js"), ("javscript", "js"), ("javsscript", "js"),
   ("javascipt", "js"), ("javasript", "js"), ("javascript", "js"),
   ("java script", "js"), ("jscipt", "js"),
   ("python", "python"), ("pyt", "python"), ("pyn", "python"), ("pythn", "python"),
   ("phyton", "python"), ("py", "python"), ("py thon", "python"), ("pthon", "python"),
   ("go", "go"), ("golang", "go"), ("gol", "go"), ("goo", "go"), ("g o", "go"),
   ("golangg", "go"),
   ("cpp", "cpp"), ("c++", "cpp"), ("cp", "cpp"), ("cppp", "cpp"),
   ("c plus", "cpp"), ("cxx", "cpp"), ("cc", "cpp"), ("cpp ", "cpp")]

/-- Embeds `utils.NormalizeLanguage`: lowercase, then map lookup,
falling back to the lowercased input. -/
def NormalizeLanguage (lang : String) : String :=
  let lang := toLowerStr lang
  match (languageMap.find? (fun kv => kv.1 = lang)).map (fun kv => kv.2) with
  | some normalized => normalized
  | none => lang

/- ===== Dispatcher (src/service/service.go, RunUserCodeProblem 1758-1954,
       processSubmission 1957-2025) ===== -/

/-- The literal `\x7bTESTCASE_PLACEHOLDER\x7d` marker. -/
def TESTCASE_MARKER : List Char := "\x7bTESTCASE_PLACEHOLDER\x7d".data

/-- The literal `\x7bFUNCTION_PLACEHOLDER\x7d` marker. -/
def FUNCTION_MARKER : List Char := "\x7bFUNCTION_PLACEHOLDER\x7d".data

/-- The template-splicing step of RunUserCodeProblem (lines 1829-1836):
for python/javascript/py/js first escape every quote of the serialized
cases, substitute the result for the first TESTCASE marker occurrence,
then substitute the user code for the first FUNCTION marker occurrence. -/
def spliceTemplate (language template userCode testCasesJSON : String) : String :=
  let t1 :=
    if language = "python" ∨ language = "javascript" ∨ language = "py" ∨ language = "js" then
      String.mk (replaceFirst template.data TESTCASE_MARKER (escapeQuotes testCasesJSON.data))
    else
      String.mk (replaceFirst template.data TESTCASE_MARKER testCasesJSON.data)
  String.mk (replaceFirst t1.data FUNCTION_MARKER userCode.data)

structure RunRequest where
  problemId : String
  language : String
  userCode : String
  userId : String
  country : String
  isRunTestcase : Bool
deriving Repr, DecidableEq

structure RunResponse where
  success : Bool
  errorType : String
  message : String
  problemId : String
  language : String
  isRunTestcase : Bool
deriving Repr, DecidableEq

/-- Outcome of a dispatcher call: `fault` models the Go error return
(nil response), `resp` the in-band RunProblemResponse. -/
inductive RunResult where
  | fault (msg : String)
  | resp (r : RunResponse)
deriving Repr, DecidableEq

/-- Oracle for the NATS request/reply round-trip, applied to the spliced
code sent to `problems.execute.request`: transport error or timeout,
non-JSON reply, reply without a string `output` field, or the `output`
string itself. -/
inductive ExecutorOutcome where
  | transportError
  | invalidPayload
  | missingOutput
  | output (s : String)
deriving Repr, DecidableEq

/-- Embeds `processSubmission` (service.go lines 1957-2025): no write at
all unless submitCasePass and a non-empty userId; otherwise construct
the submission snapshot (score 0, isFirst false) and push it.  `subId`
and `doneId` stand for the generated ObjectIDs, `now` for time.Now(). -/
def processSubmission (st : RepoState) (req : RunRequest) (status : String)
    (submitCasePass : Bool) (problem : Problem) (userCode : String)
    (subId doneId : String) (now : Int) : RepoState :=
  if submitCasePass = false ∨ req.userId = "" then st
  else
    PushSubmissionData st
      { id := subId, userId := req.userId, problemId := req.problemId,
        challengeId := none, title := problem.title, submittedAt := now,
        status := status, score := 0, language := req.language,
        userCode := userCode, output := "", executionTime := 0,
        difficulty := problem.difficulty, country := req.country,
        isFirst := false } status doneId

/-- Test-case collection of RunUserCodeProblem (lines 1796-1817): run
cases only for a run-testcase request, run ++ submit otherwise, dropping
cases with an empty id. -/
def collectTestCases (problem : Problem) (isRunTestcase : Bool) : List TestCase :=
  if isRunTestcase then problem.testcasesRun.filter (fun tc => tc.id != "")
  else (problem.testcasesRun ++ problem.testcasesSubmit).filter (fun tc => tc.id != "")

/-- Embeds `RunUserCodeProblem` (service.go lines 1758-1954) after the
problem fetch (`problem?`; none models the fetch error).  `marshalTC`
stands for json.Marshal of the collected cases, `exec` for the NATS
request/reply applied to the spliced code, `parseStats` for
json.Unmarshal of the output into ExecutionStatsResult (none = parse
error, treated as overallPass=false). -/
def RunUserCodeProblem (st : RepoState) (problem? : Option Problem) (req : RunRequest)
    (marshalTC : List TestCase → String) (exec : String → ExecutorOutcome)
    (parseStats : String → Option Bool) (subId doneId : String) (now : Int) :
    RunResult × RepoState :=
  match problem? with
  | none => (.fault "problem not found", st)
  | some problem =>
    let submitCase := !req.isRunTestcase
    match lookupCode problem.validateCode req.language with
    | none =>
        (.resp ⟨false, "INVALID_LANGUAGE", "Language not supported",
                req.problemId, req.language, req.isRunTestcase⟩, st)
    | some validateCode =>
      let testCasesJSON := marshalTC (collectTestCases problem req.isRunTestcase)
      let tmpl := spliceTemplate req.language validateCode.template req.userCode testCasesJSON
      match exec tmpl with
      | .transportError =>
          (.resp ⟨false, "COMPILATION_ERROR", "Failed to execute code",
                  req.problemId, req.language, req.isRunTestcase⟩, st)
      | .invalidPayload => (.fault "failed to parse execution result", st)
      | .missingOutput =>
          (.resp ⟨false, "EXECUTION_ERROR", "Invalid execution result format",
                  req.problemId, req.language, req.isRunTestcase⟩, st)
      | .output out =>
        if containsSubstr out.data "syntax error".data
            || containsSubstr out.data "# command-line-arguments".data then
          (.resp ⟨false, "COMPILATION_ERROR", out, req.problemId, req.language, req.isRunTestcase⟩,
           processSubmission st req "FAILED" submitCase problem req.userCode subId doneId now)
        else
          let overallPass := (parseStats out).getD false
          let status := if overallPass then "SUCCESS" else "FAILED"
          (.resp ⟨true, "", out, req.problemId, req.language, req.isRunTestcase⟩,
           processSubmission st req status submitCase problem req.userCode subId doneId now)

/- ===== Problem mutations (src/unnamed/part_005) ===== -/

structure PbTestCase where
  id : String
  input : String
  expected : String
deriving Repr, DecidableEq

/-- Embeds `toTestCases` (part_005 lines 1018-1035): an empty id is
replaced by a freshly generated ObjectID (`gen k` is the k-th id
generated in this call), an id already present in the bucket is skipped,
everything else is converted. -/
def toTestCases : List PbTestCase → List String → (Nat → String) → Nat → List TestCase
  | [], _, _, _ => []
  | tc :: rest, existingIDs, gen, k =>
    let id := if tc.id = "" then gen k else tc.id
    let k' := if tc.id = "" then k + 1 else k
    if existingIDs.contains id then toTestCases rest existingIDs gen k'
    else ⟨id, tc.input, tc.expected⟩ :: toTestCases rest existingIDs gen k'

/-- Claim-side description of the id-assignment pass: every empty id
becomes the next generated id, everything else is kept, nothing is
dropped.  `toTestCases` is proved to be this pass followed by the
already-present filter. -/
def assignIds : List PbTestCase → (Nat → String) → Nat → List TestCase
  | [], _, _ => []
  | tc :: rest, gen, k =>
    if tc.id = "" then ⟨gen k, tc.input, tc.expected⟩ :: assignIds rest gen (k + 1)
    else ⟨tc.id, tc.input, tc.expected⟩ :: assignIds rest gen k

/-- Embeds `Repository.AddTestCases` (part_005 lines 508-559) after the
fetch: cap checks on the raw request sizes, duplicate filtering against
the ids already in each bucket, `$push` of the new cases, `$set` of
updated_at and validated=false; returns the updated problem and the
AddedCount. -/
def AddTestCases (p : Problem) (reqRun reqSubmit : List PbTestCase)
    (genRun genSubmit : Nat → String) (now : Int) : Option (Problem × Nat) :=
  if p.testcasesRun.length + reqRun.length > 3 then none
  else if p.testcasesSubmit.length + reqSubmit.length > 100 then none
  else
    let newRun := toTestCases reqRun (p.testcasesRun.map (fun tc => tc.id)) genRun 0
    let newSubmit := toTestCases reqSubmit (p.testcasesSubmit.map (fun tc => tc.id)) genSubmit 0
    some ({ p with
            testcasesRun := p.testcasesRun ++ newRun,
            testcasesSubmit := p.testcasesSubmit ++ newSubmit,
            updatedAt := now,
            validated := false },
          newRun.length + newSubmit.length)

/-- Embeds `Repository.UpdateProblem` (part_005 lines 375-433) after the
fetch: reject empty provided fields and a taken title (`titleTaken`
stands for the uniqueness count query); `$set` the provided fields plus
updated_at, and validated=false exactly when at least one of
title/description/tags/difficulty was provided.  The update document
never touches validated_at. -/
def UpdateProblem (p : Problem) (titleOpt descriptionOpt difficultyOpt : Option String)
    (tags : List String) (titleTaken : Bool) (now : Int) : Option Problem :=
  if titleOpt = some "" then none
  else if titleOpt.isSome && titleTaken then none
  else if descriptionOpt = some "" then none
  else if difficultyOpt = some "" then none
  else
    let resetValidation :=
      titleOpt.isSome || descriptionOpt.isSome || decide (0 < tags.length) || difficultyOpt.isSome
    some { p with
           title := titleOpt.getD p.title,
           description := descriptionOpt.getD p.description,
           tags := if 0 < tags.length then tags else p.tags,
           difficulty := difficultyOpt.getD p.difficulty,
           updatedAt := now,
           validated := if resetValidation then false else p.validated }

/-- Embeds `Repository.DeleteTestCase` (part_005 lines 561-602) after the
fetch: not-found when no case in the selected bucket carries the id,
otherwise `$pull` the id from that bucket and `$set` updated_at and
validated=false. -/
def DeleteTestCase (p : Problem) (testcaseId : String) (isRunTestcase : Bool) (now : Int) :
    Option Problem :=
  let testcases := if isRunTestcase then p.testcasesRun else p.testcasesSubmit
  if testcases.all (fun tc => tc.id != testcaseId) then none
  else if isRunTestcase then
    some { p with
           testcasesRun := p.testcasesRun.filter (fun tc => tc.id != testcaseId),
           updatedAt := now, validated := false }
  else
    some { p with
           testcasesSubmit := p.testcasesSubmit.filter (fun tc => tc.id != testcaseId),
           updatedAt := now, validated := false }

/-- Map-set semantics of `$set validate_code.<lang>`: replace the entry
when the key exists, append it otherwise. -/
def setCode (m : List (String × CodeData)) (lang : String) (vc : CodeData) :
    List (String × CodeData) :=
  if (m.find? (fun kv => kv.1 = lang)).isSome then
    m.map (fun kv => if kv.1 = lang then (lang, vc) else kv)
  else m ++ [(lang, vc)]

/-- Embeds `Repository.AddLanguageSupport` (part_005 lines 604-642) after
the fetch: reject an already supported language, otherwise `$push` the
language, `$set` its CodeData, updated_at, and validated=false. -/
def AddLanguageSupport (p : Problem) (language : String) (vc : CodeData) (now : Int) :
    Option Problem :=
  if p.supportedLanguages.contains language then none
  else
    some { p with
           supportedLanguages := p.supportedLanguages ++ [language],
           validateCode := setCode p.validateCode language vc,
           updatedAt := now, validated := false }

/-- Embeds `Repository.UpdateLanguageSupport` (part_005 lines 644-686)
after the fetch: reject an unsupported language, otherwise `$set` its
CodeData, updated_at, and validated=false. -/
def UpdateLanguageSupport (p : Problem) (language : String) (vc : CodeData) (now : Int) :
    Option Problem :=
  if p.supportedLanguages.contains language then
    some { p with
           validateCode := setCode p.validateCode language vc,
           updatedAt := now, validated := false }
  else none

/-- Embeds `Repository.RemoveLanguageSupport` (part_005 lines 688-724)
after the fetch: reject an unsupported language, otherwise `$pull` the
language, `$unset` its CodeData, `$set` updated_at and validated=false. -/
def RemoveLanguageSupport (p : Problem) (language : String) (now : Int) : Option Problem :=
  if p.supportedLanguages.contains language then
    some { p with
           supportedLanguages := p.supportedLanguages.filter (fun l => l != language),
           validateCode := p.validateCode.filter (fun kv => kv.1 != language),
           updatedAt := now, validated := false }
  else none

/- ===== Challenges (src/unnamed/part_008 model, part_005 StartChallenge) ===== -/

structure Challenge where
  id : String
  title : String
  creatorId : String
  difficulty : String
  isPrivate : Bool
  roomCode : String
  problemIds : List String
  timeLimit : Int
  createdAt : Int
  isActive : Bool
  participantIds : List String
  status : String
  startTime : Int
  endTime : Int
  password : String
  updatedAt : Int
deriving Repr, DecidableEq

/-- Embeds `Repository.StartChallenge` (part_005 lines 1427-1472) after
the fetch: only the creator may start, an active challenge cannot be
started again; on success `$set` is_active, start_time=now,
status=ACTIVE, updated_at, and end_time = startTime + timeLimit*60
(the source multiplies TimeLimit by 60).  Returns the updated challenge
and the reported start time. -/
def StartChallenge (c : Challenge) (reqUserId : String) (now : Int) :
    Option (Challenge × Int) :=
  if c.creatorId ≠ reqUserId then none
  else if c.isActive then none
  else
    some ({ c with
            isActive := true,
            startTime := now,
            status := "ACTIVE",
            updatedAt := now,
            endTime := now + c.timeLimit * 60 },
          now)

/- ===== Monthly contribution heatmap (part_005 lines 1141-1237,
       service.go GetMonthlyActivityHeatmap 2100-2179) ===== -/

structure DateYMD where
  year : Nat
  month : Nat
  day : Nat
deriving Repr, DecidableEq

structure ActivityDay where
  date : DateYMD
  count : Nat
  isActive : Bool
deriving Repr, DecidableEq

/-- A submission row as seen by the heatmap aggregation: its owner and
its submission date (UTC calendar day of submittedAt; the Go pipeline
formats it as "%Y-%m-%d", which is injective on valid dates). -/
structure HeatSub where
  userId : String
  date : DateYMD
deriving Repr, DecidableEq

/-- Embeds `time.Date(year, month+1, 0, ...).Day()` for 1 ≤ month ≤ 12:
the number of days of the Gregorian calendar month. -/
def daysInMonth (year month : Nat) : Nat :=
  if month = 2 then
    if year % 4 = 0 ∧ (year % 100 ≠ 0 ∨ year % 400 = 0) then 29 else 28
  else if month = 4 ∨ month = 6 ∨ month = 9 ∨ month = 11 then 30
  else 31

/-- The month/year defaulting of GetMonthlyContributionHistory: both are
replaced by the current month/year when either is zero. -/
def effMonthYear (month year curMonth curYear : Nat) : Nat × Nat :=
  if month = 0 ∨ year = 0 then (curMonth, curYear) else (month, year)

/-- Number of submissions of the user on one calendar day (the size of
that day's `$group` bucket). -/
def submissionCountOn (subs : List HeatSub) (userId : String) (d : DateYMD) : Nat :=
  (subs.filter (fun s => s.userId = userId ∧ s.date = d)).length

/-- The baseline days 1..lastDay of the month, count 0, inactive. -/
def baseDays (year month lastDay : Nat) : List ActivityDay :=
  (List.range lastDay).map (fun i => ⟨⟨year, month, i + 1⟩, 0, false⟩)

/-- Embeds the aggregation pipeline (`$match` on the user and the month
range, `$group` by day, `$project` isActive := count > 0): one row per
day of the month having at least one submission.  Mongo emits the rows
in unspecified order; the order is irrelevant because the merge below is
keyed by date. -/
def aggregateDays (subs : List HeatSub) (userId : String) (year month : Nat) :
    Nat → List ActivityDay
  | 0 => []
  | n + 1 =>
    aggregateDays subs userId year month n ++
      (let c := submissionCountOn subs userId ⟨year, month, n + 1⟩
       if 0 < c then [⟨⟨year, month, n + 1⟩, c, true⟩] else [])

/-- The dayMap merge of GetMonthlyContributionHistory: walk the baseline
in order, overwriting count and isActive from the aggregated row of the
same date when one exists. -/
def mergeDays (base agg : List ActivityDay) : List ActivityDay :=
  base.map (fun b =>
    match agg.find? (fun a => a.date = b.date) with
    | some a => { b with count := a.count, isActive := a.isActive }
    | none => b)

/-- Embeds `Repository.GetMonthlyContributionHistory` (part_005 lines
1141-1237): reject an empty userID, default month/year, build the dense
baseline for the month, aggregate the user's submissions by day, and
merge.  `curMonth`/`curYear` stand for time.Now(). -/
def GetMonthlyContributionHistory (subs : List HeatSub) (userID : String)
    (month year curMonth curYear : Nat) : Option (List ActivityDay) :=
  if userID = "" then none
  else
    let my := effMonthYear month year curMonth curYear
    let lastDay := daysInMonth my.2 my.1
    some (mergeDays (baseDays my.2 my.1 lastDay)
                    (aggregateDays subs userID my.2 my.1 lastDay))

/- ===== Concrete inputs for the scoring and validation bugs ===== -/

/-- Transcribes claim C9 (amended): StartChallenge succeeds exactly for
the creator on a not-yet-active challenge, and then sets status ACTIVE,
startTime := now and endTime := now + timeLimit*60. -/
def StartChallengeClaim : Prop :=
  (∀ (c : Challenge) (u : String) (now : Int), c.creatorId ≠ u → StartChallenge c u now = none) ∧
  (∀ (c : Challenge) (u : String) (now : Int), c.isActive = true → StartChallenge c u now = none) ∧
  (∀ (c : Challenge) (u : String) (now : Int), c.creatorId = u → c.isActive = false →
     StartChallenge c u now
       = some ({ c with
                 isActive := true, startTime := now, status := "ACTIVE",
                 updatedAt := now, endTime := now + c.timeLimit * 60 }, now))

/-- Transcribes claim C7 (amended): every successful content, test-case,
or language-scaffolding mutation resets `validated` to false (for
UpdateProblem: whenever at least one of title/description/tags/
difficulty is provided) and leaves `validatedAt` unchanged. -/
def MutationResetClaim : Prop :=
  (∀ p titleOpt descriptionOpt difficultyOpt tags titleTaken now p',
     UpdateProblem p titleOpt descriptionOpt difficultyOpt tags titleTaken now = some p' →
     (titleOpt.isSome ∨ descriptionOpt.isSome ∨ 0 < tags.length ∨ difficultyOpt.isSome) →
     p'.validated = false ∧ p'.validatedAt = p.validatedAt) ∧
  (∀ p reqRun reqSubmit genR genS now p' cnt,
     AddTestCases p reqRun reqSubmit genR genS now = some (p', cnt) →
     p'.validated = false ∧ p'.validatedAt = p.validatedAt) ∧
  (∀ p testcaseId isRun now p',
     DeleteTestCase p testcaseId isRun now = some p' →
     p'.validated = false ∧ p'.validatedAt = p.validatedAt) ∧
  (∀ p lang vc now p',
     AddLanguageSupport p lang vc now = some p' →
     p'.validated = false ∧ p'.validatedAt = p.validatedAt) ∧
  (∀ p lang vc now p',
     UpdateLanguageSupport p lang vc now = some p' →
     p'.validated = false ∧ p'.validatedAt = p.validatedAt) ∧
  (∀ p lang now p',
     RemoveLanguageSupport p lang now = some p' →
     p'.validated = false ∧ p'.validatedAt = p.validatedAt)

/-- Transcribes claim C10: `toTestCases` is the fresh-id assignment pass
followed by the already-present filter; inserted + skipped = submitted;
and AddTestCases pushes exactly the filtered lists and reports their
total length as AddedCount. -/
def AddTestCasesClaim (tcs : List PbTestCase) (existingIDs : List String)
    (gen : Nat → String) (k : Nat) : Prop :=
  toTestCases tcs existingIDs gen k
    = (assignIds tcs gen k).filter (fun tc => !(existingIDs.contains tc.id)) ∧
  (toTestCases tcs existingIDs gen k).length
      + (tcs.filter (fun tc => tc.id != "" && existingIDs.contains tc.id)).length
    = tcs.length ∧
  (∀ p reqRun reqSubmit genR genS now p' cnt,
     AddTestCases p reqRun reqSubmit genR genS now = some (p', cnt) →
     p'.testcasesRun
         = p.testcasesRun ++ toTestCases reqRun (p.testcasesRun.map (fun tc => tc.id)) genR 0 ∧
     p'.testcasesSubmit
         = p.testcasesSubmit ++ toTestCases reqSubmit (p.testcasesSubmit.map (fun tc => tc.id)) genS 0 ∧
     cnt = (toTestCases reqRun (p.testcasesRun.map (fun tc => tc.id)) genR 0).length
         + (toTestCases reqSubmit (p.testcasesSubmit.map (fun tc => tc.id)) genS 0).length)

/-- A first submission on a difficulty-"M" problem (the difficulty
encoding the repository itself uses: ProblemsDoneStatistics in the same
file switches on "E"/"M"/"H"). -/
def subC1 : Submission :=
  { id := "s1", userId := "u1", problemId := "p1", challengeId := none
    title := "Two Sum", submittedAt := 0, status := "SUCCESS", score := 0
    language := "go", userCode := "code", output := "", executionTime := 0
    difficulty := "M", country := "IN", isFirst := false }

/-- A problem with 3 run cases, 0 submit cases and no languages: the
submit-case threshold (≥ 5) is violated. -/
def probC3 : Problem :=
  { id := "p3", title := "t", description := "d", tags := [], difficulty := "E"
    createdAt := 0, updatedAt := 0, deletedAt := none
    testcasesRun := [⟨"r1", "1", "1"⟩, ⟨"r2", "2", "2"⟩, ⟨"r3", "3", "3"⟩]
    testcasesSubmit := []
    supportedLanguages := [], validateCode := []
    validated := false, validatedAt := none }

/-- A problem supporting only the canonical language key "go". -/
def probC6 : Problem :=
  { id := "p6", title := "t6", description := "d6", tags := [], difficulty := "E"
    createdAt := 0, updatedAt := 0, deletedAt := none
    testcasesRun := [⟨"r1", "1", "1"⟩]
    testcasesSubmit := [⟨"s1", "1", "1"⟩]
    supportedLanguages := ["go"]
    validateCode := [("go", ⟨"ph", "refcode", "tmpl"⟩)]
    validated := true, validatedAt := some 1 }

/-- A request using the alias "golang" for the supported language "go". -/
def reqC6 : RunRequest :=
  { problemId := "p6", language := "golang", userCode := "c", userId := "u"
    country := "IN", isRunTestcase := false }

/-- A run-testcase request (isRunTestcase = true) with a known user. -/
def reqC4 : RunRequest :=
  { problemId := "p6", language := "go", userCode := "c", userId := "u"
    country := "in", isRunTestcase := true }

/-- A validated problem (validatedAt set) with one run test case. -/
def probC7 : Problem :=
  { id := "p7", title := "t7", description := "d7", tags := ["arr"], difficulty := "M"
    createdAt := 0, updatedAt := 0, deletedAt := none
    testcasesRun := [⟨"r1", "1", "1"⟩]
    testcasesSubmit := []
    supportedLanguages := ["go"]
    validateCode := [("go", ⟨"ph", "c", "tm"⟩)]
    validated := true, validatedAt := some 5 }

/-- The result of deleting run case "r1" from probC7 at time 10. -/
def probC7del : Problem :=
  { probC7 with testcasesRun := [], updatedAt := 10, validated := false }

/-- A CREATED, not-yet-active challenge with timeLimit 1. -/
def chC9 : Challenge :=
  { id := "c9", title := "ch", creatorId := "u1", difficulty := "E"
    isPrivate := false, roomCode := "r", problemIds := ["p1"], timeLimit := 1
    createdAt := 0, isActive := false, participantIds := ["u1"]
    status := "CREATED", startTime := 0, endTime := 0, password := ""
    updatedAt := 0 }

/-- Submitted test cases: one with an empty id, one colliding with an
existing id, one new. -/
def tcsC10 : List PbTestCase :=
  [⟨"", "i1", "e1"⟩, ⟨"a", "i2", "e2"⟩, ⟨"b", "i3", "e3"⟩]

/-- One submission of user "u" on 2024-02-03. -/
def subsC8 : List HeatSub := [⟨"u", ⟨2024, 2, 3⟩⟩]

/-- Transcribes claim C2 over the embedding: country uppercased before
the write; on a first success (no prior SUCCESS for the pair and
incoming SUCCESS) score and isFirst are set and a ProblemDone row with
the same score, difficulty, country and submittedAt referencing the
submission id is inserted, the leaderboard updated by AddUser when the
user has no (or an empty) entity and by IncrementScore otherwise;
every other submission only appends the Submission document. -/
def PushSubmissionClaim (st : RepoState) (sub : Submission) (status doneId : String) : Prop :=
  ∃ sub',
    (PushSubmissionData st sub status doneId).submissions = st.submissions ++ [sub'] ∧
    sub'.country = toUpperStr sub.country ∧
    sub'.userId = sub.userId ∧ sub'.problemId = sub.problemId ∧
    sub'.difficulty = sub.difficulty ∧ sub'.submittedAt = sub.submittedAt ∧
    ((successCount st sub.userId sub.problemId = 0 ∧ status = "SUCCESS") →
      sub'.score = CalculateScore sub.difficulty ∧ sub'.isFirst = true) ∧
    (¬ (successCount st sub.userId sub.problemId = 0 ∧ status = "SUCCESS") →
      sub'.score = 0 ∧ sub'.isFirst = false) ∧
    ((successCount st sub.userId sub.problemId = 0 ∧ status = "SUCCESS") →
      (PushSubmissionData st sub status doneId).problemDone
        = st.problemDone ++
          [{ id := doneId, submissionId := sub.id, problemId := sub.problemId,
             userId := sub.userId, title := sub.title, language := sub.language,
             difficulty := sub.difficulty, submittedAt := sub.submittedAt,
             country := toUpperStr sub.country, score := CalculateScore sub.difficulty }] ∧
      ((GetUserEntity st.lb sub.userId = none ∨ GetUserEntity st.lb sub.userId = some "") →
        (PushSubmissionData st sub status doneId).lb
          = AddUser st.lb ⟨sub.userId, toUpperStr sub.country, CalculateScore sub.difficulty⟩) ∧
      (∀ e, GetUserEntity st.lb sub.userId = some e → e ≠ "" →
        (PushSubmissionData st sub status doneId).lb
          = IncrementScore st.lb sub.userId e (CalculateScore sub.difficulty))) ∧
    (¬ (successCount st sub.userId sub.problemId = 0 ∧ status = "SUCCESS") →
      (PushSubmissionData st sub status doneId).problemDone = st.problemDone ∧
      (PushSubmissionData st sub status doneId).lb = st.lb)

/-- C1: the spec's scoring table E→2, M→4, H→6 does not hold on the code.
`CalculateScore` matches only the strings "MEDIUM" and "HARD", while the
repository stores difficulties as "E"/"M"/"H" (ProblemsDoneStatistics in
the same file switches on those letters), so every difficulty falls to
the default 2: a first success on a difficulty-"M" problem is recorded
with isFirst = true but score 2, not 4, and "H" also yields 2, not 6. -/
theorem calculateScore_table_bug :
    CalculateScore "E" = 2 ∧ CalculateScore "M" = 2 ∧ CalculateScore "H" = 2 ∧
    (PushSubmissionData ⟨[], [], []⟩ subC1 "SUCCESS" "pd1").submissions.map
        (fun s => (s.score, s.isFirst)) = [(2, true)] ∧
    (PushSubmissionData ⟨[], [], []⟩ subC1 "SUCCESS" "pd1").problemDone.map
        (fun pd => pd.score) = [2] := by
  exact ⟨rfl, rfl, rfl, rfl, rfl⟩

/-- C3: the INSUFFICIENT_TESTCASES guard in BasicValidationByProblemID is
`run < 3 && submit < 5`, so it fires only when BOTH counts are low.  On a
problem with 3 run cases and 0 submit cases the conjunctive requirement
"run ≥ 3 AND submit ≥ 5" (stated by the function's own error message)
fails, yet the code walks past the test-case check and reports
NO_LANGUAGES instead. -/
theorem basicValidation_threshold_bug :
    (BasicValidationByProblemID (some probC3)).errorType = "NO_LANGUAGES" ∧
    probC3.testcasesSubmit.length < 5 ∧
    ¬ (3 ≤ probC3.testcasesRun.length ∧ 5 ≤ probC3.testcasesSubmit.length) := by
  refine ⟨?_, by decide, by decide⟩
  decide

/-- C2: PushSubmissionData, called on a freshly constructed submission
(score 0, isFirst false, as processSubmission builds it), uppercases the
country, marks exactly the first-success case (prior SUCCESS count zero
and incoming status SUCCESS) with the difficulty score and isFirst, and
inserts the ProblemDone row and leaderboard update exactly then —
AddUser when the user has no (or an empty) entity, IncrementScore on the
existing entity otherwise; every other call appends only the Submission
document and leaves ProblemDone and the leaderboard unchanged. -/
theorem pushSubmissionData_spec (st : RepoState) (sub : Submission) (status doneId : String)
    (hscore : sub.score = 0) (hfirst : sub.isFirst = false) :
    PushSubmissionClaim st sub status doneId := by
  by_cases hfs : successCount st sub.userId sub.problemId = 0 ∧ status = "SUCCESS"
  · obtain ⟨h1, h2⟩ := hfs
    subst h2
    refine ⟨{ sub with
              country := toUpperStr sub.country,
              score := CalculateScore sub.difficulty,
              isFirst := true },
            ?_, rfl, rfl, rfl, rfl, rfl,
            fun _ => ⟨rfl, rfl⟩,
            fun hcon => absurd ⟨h1, rfl⟩ hcon,
            fun _ => ⟨?_, ?_, ?_⟩,
            fun hcon => absurd ⟨h1, rfl⟩ hcon⟩
    · cases hg : GetUserEntity st.lb sub.userId with
      | none => simp [PushSubmissionData, h1, hg]
      | some e =>
        by_cases he : e = "" <;> simp [PushSubmissionData, h1, hg, he]
    · cases hg : GetUserEntity st.lb sub.userId with
      | none => simp [PushSubmissionData, h1, hg]
      | some e =>
        by_cases he : e = "" <;> simp [PushSubmissionData, h1, hg, he]
    · rintro (hg | hg) <;> simp [PushSubmissionData, h1, hg]
    · intro e hg he
      simp [PushSubmissionData, h1, hg, he]
  · refine ⟨{ sub with country := toUpperStr sub.country },
            ?_, rfl, rfl, rfl, rfl, rfl,
            fun h => absurd h hfs,
            fun _ => ⟨hscore, hfirst⟩,
            fun h => absurd h hfs,
            fun _ => ⟨?_, ?_⟩⟩
    · simp [PushSubmissionData, hfs, hfirst]
    · simp [PushSubmissionData, hfs, hfirst]
    · simp [PushSubmissionData, hfs, hfirst]

/-- Witness for C2: a concrete first-success call satisfying both
hypotheses, with the conclusion obtained from the theorem. -/
theorem pushSubmissionData_spec_witness :
    subC1.score = 0 ∧ subC1.isFirst = false ∧
    PushSubmissionClaim ⟨[], [], []⟩ subC1 "SUCCESS" "pd9" :=
  ⟨rfl, rfl, pushSubmissionData_spec ⟨[], [], []⟩ subC1 "SUCCESS" "pd9" rfl rfl⟩

/-- Helper: replaceFirst on a string that starts with the pattern. -/
theorem replaceFirst_of_isPrefixOf (s pat rep : List Char)
    (h : List.isPrefixOf pat s = true) :
    replaceFirst s pat rep = rep ++ List.drop pat.length s := by
  cases s with
  | nil => simp [replaceFirst, h]
  | cons c rest => simp [replaceFirst, h]

/-- Helper: a list is a Boolean prefix of itself followed by anything. -/
theorem isPrefixOf_append_self (pat b : List Char) :
    List.isPrefixOf pat (pat ++ b) = true := by
  induction pat with
  | nil => simp
  | cons p ps ih => simp [List.isPrefixOf, ih]

/-- Helper: replaceFirst steps over a head that the pattern does not match. -/
theorem replaceFirst_cons_of_not (c : Char) (rest pat rep : List Char)
    (h : List.isPrefixOf pat (c :: rest) = false) :
    replaceFirst (c :: rest) pat rep = c :: replaceFirst rest pat rep := by
  simp [replaceFirst, h]

/-- Helper: when the first occurrence of the pattern starts at position
`a.length`, replaceFirst rewrites exactly that occurrence and keeps the
tail — so later occurrences inside `b` stay verbatim. -/
theorem replaceFirst_first_occ (pat rep a b : List Char)
    (h : ∀ i, i < a.length → List.isPrefixOf pat (List.drop i (a ++ pat ++ b)) = false) :
    replaceFirst (a ++ pat ++ b) pat rep = a ++ rep ++ b := by
  induction a with
  | nil =>
    simp only [List.nil_append]
    rw [replaceFirst_of_isPrefixOf _ _ _ (isPrefixOf_append_self pat b), List.drop_left]
  | cons x a' ih =>
    have h0 := h 0 (by simp)
    simp only [List.cons_append, List.drop_zero] at h0
    simp only [List.cons_append]
    rw [replaceFirst_cons_of_not _ _ _ _ h0]
    have ih' := ih (fun i hi => by
      have := h (i + 1) (by simp; omega)
      simpa using this)
    rw [ih']

/-- Helper: replaceFirst is the identity when the pattern never occurs. -/
theorem replaceFirst_no_occ (s pat rep : List Char)
    (h : ∀ i, i ≤ s.length → List.isPrefixOf pat (List.drop i s) = false) :
    replaceFirst s pat rep = s := by
  induction s with
  | nil =>
    have h0 := h 0 (Nat.zero_le _)
    simp only [List.drop_zero] at h0
    simp [replaceFirst, h0]
  | cons c rest ih =>
    have h0 := h 0 (Nat.zero_le _)
    simp only [List.drop_zero] at h0
    rw [replaceFirst_cons_of_not _ _ _ _ h0]
    have ih' := ih (fun i hi => by
      have := h (i + 1) (by simpa using Nat.succ_le_succ hi)
      simpa using this)
    rw [ih']

/-- C5: the splice escapes every quote of the serialized cases before
substitution exactly for the languages python/py/javascript/js, uses the
raw JSON for every other language, substitutes the test cases first and
the user code second, and each substitution rewrites only the first
marker occurrence (later occurrences are preserved verbatim, and an
absent marker leaves the text unchanged). -/
theorem spliceTemplate_spec :
    (∀ language template userCode testCasesJSON : String,
        (language = "python" ∨ language = "javascript" ∨ language = "py" ∨ language = "js") →
        spliceTemplate language template userCode testCasesJSON
          = String.mk (replaceFirst
              (replaceFirst template.data TESTCASE_MARKER (escapeQuotes testCasesJSON.data))
              FUNCTION_MARKER userCode.data)) ∧
    (∀ language template userCode testCasesJSON : String,
        language ≠ "python" → language ≠ "javascript" → language ≠ "py" → language ≠ "js" →
        spliceTemplate language template userCode testCasesJSON
          = String.mk (replaceFirst
              (replaceFirst template.data TESTCASE_MARKER testCasesJSON.data)
              FUNCTION_MARKER userCode.data)) ∧
    (∀ pat rep a b : List Char,
        (∀ i, i < a.length → List.isPrefixOf pat (List.drop i (a ++ pat ++ b)) = false) →
        replaceFirst (a ++ pat ++ b) pat rep = a ++ rep ++ b) ∧
    (∀ s pat rep : List Char,
        (∀ i, i ≤ s.length → List.isPrefixOf pat (List.drop i s) = false) →
        replaceFirst s pat rep = s) := by
  refine ⟨?_, ?_, replaceFirst_first_occ, replaceFirst_no_occ⟩
  · rintro lang tmpl code json (h | h | h | h) <;> subst h <;> rfl
  · intro lang tmpl code json h1 h2 h3 h4
    simp [spliceTemplate, h1, h2, h3, h4]

/-- Witness for C5: a concrete first-occurrence splice where a second
occurrence of the pattern survives. -/
theorem spliceTemplate_spec_witness :
    (∀ i, i < ("ax".data).length →
        List.isPrefixOf ("q".data) (List.drop i ("ax".data ++ "q".data ++ "bqc".data)) = false) ∧
    replaceFirst ("ax".data ++ "q".data ++ "bqc".data) "q".data "R".data
      = "ax".data ++ "R".data ++ "bqc".data :=
  ⟨by decide, spliceTemplate_spec.2.2.1 "q".data "R".data "ax".data "bqc".data (by decide)⟩

/-- C4: with isRunTestcase = true or an empty userId, RunUserCodeProblem
leaves the whole store (submissions, ProblemDone, leaderboard) unchanged
on every outcome path — problem missing, unsupported language, executor
transport error, bad reply payload, missing output field, compile-error
detection, and the normal pass/fail path. -/
theorem runUserCodeProblem_no_write (st : RepoState) (problem? : Option Problem)
    (req : RunRequest) (marshalTC : List TestCase → String) (exec : String → ExecutorOutcome)
    (parseStats : String → Option Bool) (subId doneId : String) (now : Int)
    (h : req.isRunTestcase = true ∨ req.userId = "") :
    (RunUserCodeProblem st problem? req marshalTC exec parseStats subId doneId now).2 = st := by
  have hps : ∀ status userCode problem,
      processSubmission st req status (!req.isRunTestcase) problem userCode subId doneId now = st := by
    intro status userCode problem
    rcases h with h | h
    · simp [processSubmission, h]
    · simp [processSubmission, h]
  cases problem? with
  | none => rfl
  | some problem =>
    cases hlc : lookupCode problem.validateCode req.language with
    | none => simp [RunUserCodeProblem, hlc]
    | some vc =>
      cases hex : exec (spliceTemplate req.language vc.template req.userCode
          (marshalTC (collectTestCases problem req.isRunTestcase))) with
      | transportError => simp [RunUserCodeProblem, hlc, hex]
      | invalidPayload => simp [RunUserCodeProblem, hlc, hex]
      | missingOutput => simp [RunUserCodeProblem, hlc, hex]
      | output out =>
        by_cases hco : (containsSubstr out.data "syntax error".data
            || containsSubstr out.data "# command-line-arguments".data) = true
        · simp [RunUserCodeProblem, hlc, hex, hco, hps]
        · simp [RunUserCodeProblem, hlc, hex, hco, hps]

/-- Witness for C4: a concrete run-testcase request through the normal
executor path writes nothing. -/
theorem runUserCodeProblem_no_write_witness :
    (reqC4.isRunTestcase = true ∨ reqC4.userId = "") ∧
    (RunUserCodeProblem ⟨[], [], []⟩ (some probC6) reqC4 (fun _ => "[]")
        (fun _ => .output "ok") (fun _ => some true) "s" "d" 0).2 = ⟨[], [], []⟩ :=
  ⟨Or.inl rfl,
   runUserCodeProblem_no_write ⟨[], [], []⟩ (some probC6) reqC4 (fun _ => "[]")
     (fun _ => .output "ok") (fun _ => some true) "s" "d" 0 (Or.inl rfl)⟩

/-- C6 fails on the code: NormalizeLanguage does map the alias "golang"
to the canonical "go", which probC6 supports, yet RunUserCodeProblem
looks the CodeData up by the raw request language — NormalizeLanguage is
never invoked in the service — so the aliased request is rejected with
INVALID_LANGUAGE instead of resolving to the "go" CodeData. -/
theorem runUserCodeProblem_alias_invalid :
    NormalizeLanguage "golang" = "go" ∧
    probC6.supportedLanguages.contains (NormalizeLanguage "golang") = true ∧
    (RunUserCodeProblem ⟨[], [], []⟩ (some probC6) reqC6 (fun _ => "[]")
        (fun _ => .output "ok") (fun _ => some true) "s" "d" 0).1
      = .resp ⟨false, "INVALID_LANGUAGE", "Language not supported", "p6", "golang", false⟩ := by
  exact ⟨rfl, rfl, rfl⟩

/-- C6 (amended): NormalizeLanguage implements the alias table —
golang/gol/goo/"g o"/golangg→go, javascript (and friends)→js,
c++/cxx/cc→cpp, py→python — but it is applied nowhere in the service:
RunUserCodeProblem keys the CodeData lookup by the raw request language,
so any language whose raw value is not a key of the problem's
scaffolding terminates with INVALID_LANGUAGE and no store change. -/
theorem normalizeLanguage_table_rawLookup :
    (NormalizeLanguage "go" = "go" ∧ NormalizeLanguage "golang" = "go" ∧
     NormalizeLanguage "gol" = "go" ∧ NormalizeLanguage "goo" = "go" ∧
     NormalizeLanguage "g o" = "go" ∧ NormalizeLanguage "golangg" = "go" ∧
     NormalizeLanguage "javascript" = "js" ∧ NormalizeLanguage "jscript" = "js" ∧
     NormalizeLanguage "c++" = "cpp" ∧ NormalizeLanguage "cxx" = "cpp" ∧
     NormalizeLanguage "cc" = "cpp" ∧ NormalizeLanguage "py" = "python" ∧
     NormalizeLanguage "python" = "python") ∧
    (∀ (st : RepoState) (problem : Problem) (req : RunRequest) marshalTC exec parseStats
        (subId doneId : String) (now : Int),
       lookupCode problem.validateCode req.language = none →
       RunUserCodeProblem st (some problem) req marshalTC exec parseStats subId doneId now
         = (.resp ⟨false, "INVALID_LANGUAGE", "Language not supported",
                   req.problemId, req.language, req.isRunTestcase⟩, st)) := by
  refine ⟨⟨rfl, rfl, rfl, rfl, rfl, rfl, rfl, rfl, rfl, rfl, rfl, rfl, rfl⟩, ?_⟩
  intro st problem req marshalTC exec parseStats subId doneId now h
  simp [RunUserCodeProblem, h]

/-- Witness for C6 (amended): the raw-language lookup hypothesis holds
for the aliased request against probC6, and the INVALID_LANGUAGE result
follows from the theorem. -/
theorem normalizeLanguage_table_rawLookup_witness :
    lookupCode probC6.validateCode reqC6.language = none ∧
    RunUserCodeProblem ⟨[], [], []⟩ (some probC6) reqC6 (fun _ => "[]")
        (fun _ => .output "ok") (fun _ => some true) "s" "d" 0
      = (.resp ⟨false, "INVALID_LANGUAGE", "Language not supported",
                reqC6.problemId, reqC6.language, reqC6.isRunTestcase⟩, ⟨[], [], []⟩) :=
  ⟨rfl,
   normalizeLanguage_table_rawLookup.2 ⟨[], [], []⟩ probC6 reqC6 (fun _ => "[]")
     (fun _ => .output "ok") (fun _ => some true) "s" "d" 0 rfl⟩

/-- C7 fails on the code: the mutation update documents `$set`
validated=false but never `$unset`/clear validated_at — deleting a test
case from a validated problem resets the flag yet keeps the old
validatedAt timestamp. -/
theorem mutation_keeps_validatedAt :
    probC7.validatedAt = some 5 ∧
    DeleteTestCase probC7 "r1" true 10 = some probC7del ∧
    probC7del.validated = false ∧
    probC7del.validatedAt = some 5 := by
  exact ⟨rfl, rfl, rfl, rfl⟩

/-- C7 (amended): every successful mutation of a problem's content
(UpdateProblem, when at least one of title/description/tags/difficulty
is provided), of its test-case set (AddTestCases, DeleteTestCase), or of
its language scaffolding (Add/Update/RemoveLanguageSupport) resets
validated to false; validatedAt is left unchanged, not cleared. -/
theorem mutationsResetValidation : MutationResetClaim := by
  refine ⟨?_, ?_, ?_, ?_, ?_, ?_⟩
  · intro p titleOpt descriptionOpt difficultyOpt tags titleTaken now p' h hmut
    have hreset : (titleOpt.isSome || descriptionOpt.isSome
        || decide (0 < tags.length) || difficultyOpt.isSome) = true := by
      rcases hmut with hm | hm | hm | hm <;> simp [hm]
    simp only [UpdateProblem] at h
    split at h
    · exact absurd h (by simp)
    · split at h
      · exact absurd h (by simp)
      · split at h
        · exact absurd h (by simp)
        · split at h
          · exact absurd h (by simp)
          · have hp := Option.some.inj h
            subst hp
            refine ⟨?_, rfl⟩
            simp [hreset]
  · intro p reqRun reqSubmit genR genS now p' cnt h
    simp only [AddTestCases] at h
    split at h
    · exact absurd h (by simp)
    · split at h
      · exact absurd h (by simp)
      · have hx := Option.some.inj h
        simp only [Prod.mk.injEq] at hx
        obtain ⟨hp, _⟩ := hx
        subst hp
        exact ⟨rfl, rfl⟩
  · intro p testcaseId isRun now p' h
    simp only [DeleteTestCase] at h
    split at h
    · split at h
      · exact absurd h (by simp)
      · have hp := Option.some.inj h
        subst hp
        exact ⟨rfl, rfl⟩
    · split at h
      · exact absurd h (by simp)
      · have hp := Option.some.inj h
        subst hp
        exact ⟨rfl, rfl⟩
  · intro p lang vc now p' h
    simp only [AddLanguageSupport] at h
    split at h
    · exact absurd h (by simp)
    · have hp := Option.some.inj h
      subst hp
      exact ⟨rfl, rfl⟩
  · intro p lang vc now p' h
    simp only [UpdateLanguageSupport] at h
    split at h
    · have hp := Option.some.inj h
      subst hp
      exact ⟨rfl, rfl⟩
    · exact absurd h (by simp)
  · intro p lang now p' h
    simp only [RemoveLanguageSupport] at h
    split at h
    · have hp := Option.some.inj h
      subst hp
      exact ⟨rfl, rfl⟩
    · exact absurd h (by simp)

/-- Witness for C7 (amended): the DeleteTestCase conjunct applied to the
concrete deletion from probC7. -/
theorem mutationsResetValidation_witness :
    DeleteTestCase probC7 "r1" true 10 = some probC7del ∧
    probC7del.validated = false ∧ probC7del.validatedAt = probC7.validatedAt :=
  ⟨rfl,
   (mutationsResetValidation.2.2.1 probC7 "r1" true 10 probC7del rfl).1,
   (mutationsResetValidation.2.2.1 probC7 "r1" true 10 probC7del rfl).2⟩

/-- C9 fails on the code: StartChallenge writes
end_time = startTime + timeLimit*60 — timeLimit is treated as minutes,
not seconds — so starting chC9 (timeLimit 1) at time 100 fixes endTime
160 instead of 101. -/
theorem startChallenge_timeLimit_counterexample :
    (StartChallenge chC9 "u1" 100).map (fun r => r.1.endTime) = some 160 ∧
    (100 : Int) + chC9.timeLimit = 101 ∧ (160 : Int) ≠ 101 := by
  exact ⟨rfl, rfl, by decide⟩

/-- C9 (amended): StartChallenge succeeds exactly when invoked by the
creator on a challenge whose isActive flag is false; it then sets status
ACTIVE, startTime = now, and endTime = startTime + timeLimit*60 (the
code multiplies timeLimit by 60). -/
theorem startChallenge_spec : StartChallengeClaim := by
  refine ⟨?_, ?_, ?_⟩
  · intro c u now h
    simp [StartChallenge, h]
  · intro c u now h
    simp [StartChallenge, h]
  · intro c u now hcreator hactive
    simp [StartChallenge, hcreator, hactive]

/-- Witness for C9 (amended): the success conjunct applied to chC9. -/
theorem startChallenge_spec_witness :
    chC9.creatorId = "u1" ∧ chC9.isActive = false ∧
    StartChallenge chC9 "u1" 100
      = some ({ chC9 with
                isActive := true, startTime := 100, status := "ACTIVE",
                updatedAt := 100, endTime := 100 + chC9.timeLimit * 60 }, 100) :=
  ⟨rfl, rfl, startChallenge_spec.2.2 chC9 "u1" 100 rfl rfl⟩

/-- C10: provided the generated ObjectIDs never collide with the bucket's
existing ids, toTestCases is exactly the fresh-id assignment pass
(assignIds: every empty id becomes the next generated id) followed by
the already-present filter; inserted + skipped = submitted, so the
result can be shorter than the request; and AddTestCases pushes exactly
these filtered lists and reports their total length as AddedCount. -/
theorem toTestCases_spec (tcs : List PbTestCase) (existingIDs : List String)
    (gen : Nat → String) (k : Nat)
    (hfresh : ∀ n, existingIDs.contains (gen n) = false) :
    AddTestCasesClaim tcs existingIDs gen k := by
  refine ⟨?_, ?_, ?_⟩
  · induction tcs generalizing k with
    | nil => rfl
    | cons tc rest ih =>
      by_cases hid : tc.id = ""
      · have hg : gen k ∉ existingIDs := by simpa using hfresh k
        simp [toTestCases, assignIds, hid, hg, ih]
      · by_cases hex : tc.id ∈ existingIDs
        · simp [toTestCases, assignIds, hid, hex, ih]
        · simp [toTestCases, assignIds, hid, hex, ih]
  · induction tcs generalizing k with
    | nil => rfl
    | cons tc rest ih =>
      by_cases hid : tc.id = ""
      · have hg : gen k ∉ existingIDs := by simpa using hfresh k
        have := ih (k + 1)
        simp [toTestCases, hid, hg, List.filter_cons] at this ⊢
        omega
      · by_cases hex : tc.id ∈ existingIDs
        · have := ih k
          simp [toTestCases, hid, hex, List.filter_cons] at this ⊢
          omega
        · have := ih k
          simp [toTestCases, hid, hex, List.filter_cons] at this ⊢
          omega
  · intro p reqRun reqSubmit genR genS now p' cnt h
    simp only [AddTestCases] at h
    split at h
    · exact absurd h (by simp)
    · split at h
      · exact absurd h (by simp)
      · have hx := Option.some.inj h
        simp only [Prod.mk.injEq] at hx
        obtain ⟨hp, hc⟩ := hx
        subst hp
        subst hc
        exact ⟨rfl, rfl, rfl⟩

/-- Witness for C10: the fresh-id hypothesis holds for a constant fresh
generator against the existing id "a", and the claim at the concrete
request follows from the theorem. -/
theorem toTestCases_spec_witness :
    (∀ n : Nat, (["a"].contains ((fun _ => "g") n)) = false) ∧
    AddTestCasesClaim tcsC10 ["a"] (fun _ => "g") 0 :=
  ⟨fun _ => rfl, toTestCases_spec tcsC10 ["a"] (fun _ => "g") 0 (fun _ => rfl)⟩

/-- Helper: find? over an append when the left part already finds. -/
theorem xcfind_append_some {α : Type} (p : α → Bool) {l₁ : List α} (l₂ : List α) {x : α}
    (h : l₁.find? p = some x) : (l₁ ++ l₂).find? p = some x := by
  induction l₁ with
  | nil => simp [List.find?] at h
  | cons a as ih =>
    by_cases hp : p a
    · rw [List.find?_cons_of_pos _ hp] at h
      simpa [List.find?_cons_of_pos _ hp] using h
    · rw [List.find?_cons_of_neg _ hp] at h
      simpa [List.find?_cons_of_neg _ hp] using ih h

/-- Helper: find? over an append when the left part finds nothing. -/
theorem xcfind_append_none {α : Type} (p : α → Bool) {l₁ : List α} (l₂ : List α)
    (h : l₁.find? p = none) : (l₁ ++ l₂).find? p = l₂.find? p := by
  induction l₁ with
  | nil => simp
  | cons a as ih =>
    by_cases hp : p a
    · rw [List.find?_cons_of_pos _ hp] at h
      simp at h
    · rw [List.find?_cons_of_neg _ hp] at h
      simpa [List.find?_cons_of_neg _ hp] using ih h

/-- Helper: every aggregated row belongs to a day 1..n of the month. -/
theorem mem_aggregateDays {subs : List HeatSub} {uid : String} {y m : Nat} :
    ∀ {n : Nat} {a : ActivityDay}, a ∈ aggregateDays subs uid y m n →
      ∃ j, j < n ∧ a.date = ⟨y, m, j + 1⟩ := by
  intro n
  induction n with
  | zero => intro a ha; simp [aggregateDays] at ha
  | succ n ih =>
    intro a ha
    rw [aggregateDays, List.mem_append] at ha
    rcases ha with ha | ha
    · obtain ⟨j, hj, hd⟩ := ih ha
      exact ⟨j, by omega, hd⟩
    · by_cases hc : 0 < submissionCountOn subs uid ⟨y, m, n + 1⟩
      · rw [if_pos hc] at ha
        simp at ha
        exact ⟨n, by omega, by rw [ha]⟩
      · rw [if_neg hc] at ha
        simp at ha

/-- Helper: looking day i+1 (i < n) up in the aggregation yields that
day's bucket when non-empty and nothing otherwise. -/
theorem find?_aggregateDays (subs : List HeatSub) (uid : String) (y m : Nat) :
    ∀ n i, i < n →
      (aggregateDays subs uid y m n).find? (fun a => a.date = ⟨y, m, i + 1⟩)
        = (if 0 < submissionCountOn subs uid ⟨y, m, i + 1⟩ then
             some ⟨⟨y, m, i + 1⟩, submissionCountOn subs uid ⟨y, m, i + 1⟩, true⟩
           else none) := by
  intro n
  induction n with
  | zero => intro i hi; omega
  | succ n ih =>
    intro i hi
    rw [aggregateDays]
    by_cases hin : i < n
    · have hfind := ih i hin
      by_cases hc : 0 < submissionCountOn subs uid ⟨y, m, i + 1⟩
      · rw [if_pos hc]
        rw [if_pos hc] at hfind
        exact xcfind_append_some _ _ hfind
      · rw [if_neg hc]
        rw [if_neg hc] at hfind
        rw [xcfind_append_none _ _ hfind]
        by_cases hcn : 0 < submissionCountOn subs uid ⟨y, m, n + 1⟩
        · rw [if_pos hcn]
          have hne : ¬ ((⟨y, m, n + 1⟩ : DateYMD) = ⟨y, m, i + 1⟩) := by
            intro hcon
            have : n + 1 = i + 1 := congrArg DateYMD.day hcon
            omega
          simp [List.find?, hne]
        · rw [if_neg hcn]
          simp [List.find?]
    · have hieq : i = n := by omega
      subst hieq
      have hnone : (aggregateDays subs uid y m i).find?
          (fun a => a.date = ⟨y, m, i + 1⟩) = none := by
        rw [List.find?_eq_none]
        intro a ha
        obtain ⟨j, hj, hd⟩ := mem_aggregateDays ha
        simp only [hd]
        intro hcon
        have : j + 1 = i + 1 := congrArg DateYMD.day (of_decide_eq_true hcon)
        omega
      rw [xcfind_append_none _ _ hnone]
      by_cases hc : 0 < submissionCountOn subs uid ⟨y, m, i + 1⟩
      · rw [if_pos hc, if_pos hc]
        simp [List.find?]
      · rw [if_neg hc, if_neg hc]
        simp [List.find?]

/-- C8: for a non-empty userID, the monthly contribution history is the
dense calendar month — exactly `daysInMonth` entries (month and year
replaced by the current ones when either is zero), the i-th entry being
day i+1 with the user's submission count on that day and
isActive = count > 0 (count 0 and isActive false on days without
submissions). -/
theorem getMonthlyContributionHistory_dense (subs : List HeatSub) (userID : String)
    (month year curMonth curYear m y : Nat)
    (h : userID ≠ "") (hmy : effMonthYear month year curMonth curYear = (m, y)) :
    GetMonthlyContributionHistory subs userID month year curMonth curYear
      = some ((List.range (daysInMonth y m)).map (fun i =>
          { date := ⟨y, m, i + 1⟩,
            count := submissionCountOn subs userID ⟨y, m, i + 1⟩,
            isActive := decide (0 < submissionCountOn subs userID ⟨y, m, i + 1⟩) })) := by
  simp only [GetMonthlyContributionHistory, hmy, if_neg h]
  congr 1
  simp only [mergeDays, baseDays, List.map_map]
  apply List.map_congr_left
  intro i hi
  have hi' : i < daysInMonth y m := List.mem_range.mp hi
  have hfind := find?_aggregateDays subs userID y m (daysInMonth y m) i hi'
  by_cases hc : 0 < submissionCountOn subs userID ⟨y, m, i + 1⟩
  · rw [if_pos hc] at hfind
    simp [Function.comp, hfind, hc]
  · rw [if_neg hc] at hfind
    have hc0 : submissionCountOn subs userID ⟨y, m, i + 1⟩ = 0 := by omega
    simp [Function.comp, hfind, hc, hc0]

/-- Witness for C8: February 2024 (a leap month, 29 entries) for a user
with one submission, hypotheses discharged concretely. -/
theorem getMonthlyContributionHistory_dense_witness :
    ("u" : String) ≠ "" ∧ effMonthYear 2 2024 7 2025 = (2, 2024) ∧
    GetMonthlyContributionHistory subsC8 "u" 2 2024 7 2025
      = some ((List.range (daysInMonth 2024 2)).map (fun i =>
          { date := ⟨2024, 2, i + 1⟩,
            count := submissionCountOn subsC8 "u" ⟨2024, 2, i + 1⟩,
            isActive := decide (0 < submissionCountOn subsC8 "u" ⟨2024, 2, i + 1⟩) })) :=
  ⟨by decide, rfl,
   getMonthlyContributionHistory_dense subsC8 "u" 2 2024 7 2025 2 2024 (by decide) rfl⟩

end XCode
